import Mathlib

/-!
Verification development for the InvoiceX invoice pipeline
(`invoicex/app/etl.py`, `anomaly.py`, `tax.py`, `explain.py`).

The Python code is shallowly embedded: Python `float` values are modelled as
exact rationals (`ℚ`), `int` as `ℤ`, strings as Lean `String` / `List Char`,
loosely-typed payload fields as an inductive `PyVal`, and absent dictionary
keys as `Option`.  Trained model artifacts (joblib files) are not code of the
repository; functions that consult them take the model's numeric output as an
explicit function parameter.
-/

namespace InvoiceX

/-! ### Character and string helpers (Python `str` methods) -/

/-- Python `str.strip()` : drop whitespace from both ends. -/
def pyStrip (cs : List Char) : List Char :=
  ((cs.dropWhile Char.isWhitespace).reverse.dropWhile Char.isWhitespace).reverse

/-- `_strip` from `etl.py`: `str(s or "").strip()` on an optional text field. -/
def stripS (o : Option String) : String :=
  String.mk (pyStrip (o.getD "").data)

/-- The ten Arabic-Indic digit characters `٠١٢٣٤٥٦٧٨٩` (U+0660 – U+0669). -/
def isArabicIndic (c : Char) : Bool :=
  0x660 ≤ c.toNat && c.toNat ≤ 0x669

/-- `ARABIC_INDIC` translation table from `etl.py`: map `٠`–`٩` to `0`–`9`,
leave every other character unchanged. -/
def arDigitToAscii (c : Char) : Char :=
  if isArabicIndic c then Char.ofNat (c.toNat - 0x660 + 48) else c

/-- `_ar_digits_to_ascii` from `etl.py`. -/
def arToAscii (cs : List Char) : List Char := cs.map arDigitToAscii

def lowerS (s : String) : String := String.mk (s.data.map Char.toLower)

def upperS (s : String) : String := String.mk (s.data.map Char.toUpper)

/-- Value of a digit-character list, most significant first. -/
def digitsToNat (cs : List Char) : ℕ :=
  cs.foldl (fun a c => 10 * a + (c.toNat - 48)) 0

/-! ### Python numeric conversion (`float(...)`, `int(...)`)

Python's `float` / `int` accept Unicode decimal digits (hence the
`arToAscii` pass) and surrounding whitespace.  Underscore digit
separators and the `inf`/`nan` literals are outside this model. -/

/-- Optional sign at the head of a numeric literal. -/
def floatSign : List Char → ℚ × List Char
  | '+' :: r => (1, r)
  | '-' :: r => (-1, r)
  | r => (1, r)

/-- Exponent suffix of a float literal: empty, or `e`/`E`, optional sign,
one or more digits; anything else (in particular trailing garbage) fails. -/
def parseExpTail (cs : List Char) : Option ℤ :=
  match cs with
  | [] => some 0
  | 'e' :: r => parseExpDigits r
  | 'E' :: r => parseExpDigits r
  | _ => none
where
  parseExpDigits (r : List Char) : Option ℤ :=
    let p : ℤ × List Char :=
      match r with
      | '+' :: t => (1, t)
      | '-' :: t => (-1, t)
      | t => (1, t)
    let ds := p.2.takeWhile Char.isDigit
    let rest := p.2.dropWhile Char.isDigit
    if ds = [] ∨ rest ≠ [] then none else some (p.1 * (digitsToNat ds : ℤ))

/-- `10 ^ n` on ℚ by plain recursion (kernel-computable). -/
def pow10N : ℕ → ℚ
  | 0 => 1
  | n + 1 => 10 * pow10N n

/-- `10 ^ e` on ℚ for an integer exponent. -/
def pow10Z (e : ℤ) : ℚ :=
  if 0 ≤ e then pow10N e.toNat else 1 / pow10N (-e).toNat

/-- Model of Python `float(s)` on a string. -/
def parsePyFloat (cs0 : List Char) : Option ℚ :=
  let cs1 := pyStrip (arToAscii cs0)
  let sp := floatSign cs1
  let ip := sp.2.takeWhile Char.isDigit
  let cs2 := sp.2.dropWhile Char.isDigit
  match cs2 with
  | '.' :: r =>
    let fp := r.takeWhile Char.isDigit
    let r2 := r.dropWhile Char.isDigit
    if ip = [] ∧ fp = [] then none
    else (parseExpTail r2).map (fun e =>
      sp.1 * ((digitsToNat ip : ℚ) + (digitsToNat fp : ℚ) / pow10N fp.length)
        * pow10Z e)
  | r =>
    if ip = [] then none
    else (parseExpTail r).map (fun e => sp.1 * (digitsToNat ip : ℚ) * pow10Z e)

/-- Model of Python `int(s)` on a string: optional surrounding whitespace,
optional sign, one or more decimal digits. -/
def pyIntOfStr (cs : List Char) : Option ℤ :=
  let t := pyStrip (arToAscii cs)
  let p : ℤ × List Char :=
    match t with
    | '+' :: r => (1, r)
    | '-' :: r => (-1, r)
    | r => (1, r)
  if p.2 ≠ [] ∧ p.2.all Char.isDigit then some (p.1 * (digitsToNat p.2 : ℤ)) else none

/-- A loosely-typed Python value as it appears in an invoice payload. -/
inductive PyVal where
  | vnone : PyVal
  | vint (n : ℤ) : PyVal
  | vfloat (q : ℚ) : PyVal
  | vstr (s : String) : PyVal
deriving DecidableEq

/-- Truncation toward zero, the behaviour of Python `int()` on a float. -/
def ratTrunc (q : ℚ) : ℤ := if q < 0 then ⌈q⌉ else ⌊q⌋

/-- Python `int(v)`: `None` raises (modelled as `none`), numbers truncate,
strings parse as decimal integers. -/
def pyInt : PyVal → Option ℤ
  | .vnone => none
  | .vint n => some n
  | .vfloat q => some (ratTrunc q)
  | .vstr s => pyIntOfStr s.data

/-- `_normalize_number_str` from `etl.py`: locale-aware separator cleanup. -/
def normalizeNumberStr (num : List Char) (lang : String) : List Char :=
  let s := pyStrip num
  if lang = "ar" then
    (((arToAscii s).filter (fun c => c ≠ '٬')).map
      (fun c => if c = '٫' then '.' else c)).filter (fun c => c ≠ ',')
  else if lang = "de" then
    (s.filter (fun c => c ≠ '.')).map (fun c => if c = ',' then '.' else c)
  else
    s.filter (fun c => c ≠ ',')

/-- `_to_float` from `etl.py`: numeric values bypass string parsing; strings
go through locale normalization and then `float(...)`; `None` yields `none`. -/
def toFloat (v : PyVal) (lang : String) : Option ℚ :=
  match v with
  | .vnone => none
  | .vint n => some (n : ℚ)
  | .vfloat q => some q
  | .vstr s => parsePyFloat (normalizeNumberStr s.data lang)

/-! ### Date parsing (`_parse_date_localized` from `etl.py`)

`strptime` is modelled for the six directive patterns the code uses.  Each
pattern is a field order (`%Y-%m-%d` etc.) together with a separator.  The
directives follow CPython's `_strptime` regexes: `%Y` is exactly four digits,
`%m` is `1[0-2]|0[1-9]|[1-9]`, `%d` is `3[01]|[12]\d|0[1-9]|[1-9]`, with the
regex alternatives tried in that order (backtracking).  A full regex match is
found first; only then is the calendar validity of the matched numbers
checked (an invalid date makes that pattern fail, like the `ValueError`
raised by `datetime`).  `strftime("%Y-%m-%d")` is modelled as zero-padded
4-2-2 digit output, CPython's documented formatting. -/

/-- Gregorian leap year, as Python `datetime`. -/
def isLeap (y : ℕ) : Bool := (y % 4 = 0 && y % 100 ≠ 0) || y % 400 = 0

def daysInMonth (y m : ℕ) : ℕ :=
  if m = 2 then (if isLeap y then 29 else 28)
  else if m = 4 ∨ m = 6 ∨ m = 9 ∨ m = 11 then 30
  else 31

/-- `datetime(year, month, day)` construction: fails (raises) outside the
supported range, exactly like Python's `datetime`. -/
def mkDate (t : ℕ × ℕ × ℕ) : Option (ℕ × ℕ × ℕ) :=
  if 1 ≤ t.1 ∧ t.1 ≤ 9999 ∧ 1 ≤ t.2.1 ∧ t.2.1 ≤ 12 ∧ 1 ≤ t.2.2 ∧
      t.2.2 ≤ daysInMonth t.1 t.2.1 then some t else none

/-- `%Y`: exactly four decimal digits. -/
def parseY4 : List Char → Option (ℕ × List Char)
  | a :: b :: c :: d :: rest =>
    if a.isDigit && b.isDigit && c.isDigit && d.isDigit then
      some (digitsToNat [a, b, c, d], rest)
    else none
  | _ => none

/-- `%m` as the ordered regex alternatives `1[0-2] | 0[1-9] | [1-9]`:
all candidate `(value, rest)` pairs, in backtracking order. -/
def monthCands : List Char → List (ℕ × List Char)
  | a :: b :: rest =>
    (if a = '1' && '0' ≤ b && b ≤ '2' then [(10 + (b.toNat - 48), rest)] else [])
      ++ (if a = '0' && '1' ≤ b && b ≤ '9' then [(b.toNat - 48, rest)] else [])
      ++ (if '1' ≤ a && a ≤ '9' then [(a.toNat - 48, b :: rest)] else [])
  | [a] => if '1' ≤ a && a ≤ '9' then [(a.toNat - 48, [])] else []
  | [] => []

/-- `%d` as the ordered regex alternatives `3[01] | [12]\d | 0[1-9] | [1-9]`. -/
def dayCands : List Char → List (ℕ × List Char)
  | a :: b :: rest =>
    (if a = '3' && (b = '0' || b = '1') then [(30 + (b.toNat - 48), rest)] else [])
      ++ (if (a = '1' || a = '2') && b.isDigit
          then [(10 * (a.toNat - 48) + (b.toNat - 48), rest)] else [])
      ++ (if a = '0' && '1' ≤ b && b ≤ '9' then [(b.toNat - 48, rest)] else [])
      ++ (if '1' ≤ a && a ≤ '9' then [(a.toNat - 48, b :: rest)] else [])
  | [a] => if '1' ≤ a && a ≤ '9' then [(a.toNat - 48, [])] else []
  | [] => []

/-- Literal separator character. -/
def expectChar (c : Char) : List Char → Option (List Char)
  | x :: r => if x = c then some r else none
  | [] => none

/-- Field order of a date directive pattern. -/
inductive DOrd where
  | ymd : DOrd
  | mdy : DOrd
  | dmy : DOrd
deriving DecidableEq

/-- First full regex match of one strptime pattern against the whole string
(backtracking over the candidate lists, rest must be empty). -/
def regexDate : DOrd → Char → List Char → Option (ℕ × ℕ × ℕ)
  | .ymd, sep, cs =>
    (parseY4 cs).bind fun yr =>
      (expectChar sep yr.2).bind fun r1 =>
        (monthCands r1).findSome? fun mr =>
          (expectChar sep mr.2).bind fun r2 =>
            (dayCands r2).findSome? fun dr =>
              if dr.2 = [] then some (yr.1, mr.1, dr.1) else none
  | .mdy, sep, cs =>
    (monthCands cs).findSome? fun mr =>
      (expectChar sep mr.2).bind fun r1 =>
        (dayCands r1).findSome? fun dr =>
          (expectChar sep dr.2).bind fun r2 =>
            (parseY4 r2).bind fun yr =>
              if yr.2 = [] then some (yr.1, mr.1, dr.1) else none
  | .dmy, sep, cs =>
    (dayCands cs).findSome? fun dr =>
      (expectChar sep dr.2).bind fun r1 =>
        (monthCands r1).findSome? fun mr =>
          (expectChar sep mr.2).bind fun r2 =>
            (parseY4 r2).bind fun yr =>
              if yr.2 = [] then some (yr.1, mr.1, dr.1) else none

/-- `datetime.strptime(raw, fmt)`: regex match, then calendar validation. -/
def tryPattern (p : DOrd × Char) (cs : List Char) : Option (ℕ × ℕ × ℕ) :=
  (regexDate p.1 p.2 cs).bind mkDate

/-- The per-language pattern lists of `_parse_date_localized`
(`patterns.get(lang, patterns["en"])`). -/
def patternsFor (lang : String) : List (DOrd × Char) :=
  if lang = "en" then [(.ymd, '-'), (.mdy, '/'), (.mdy, '-'), (.dmy, '/'), (.dmy, '-')]
  else if lang = "de" then [(.dmy, '.'), (.dmy, '/'), (.dmy, '-'), (.ymd, '-')]
  else if lang = "ar" then [(.dmy, '/'), (.ymd, '-'), (.dmy, '-')]
  else [(.ymd, '-'), (.mdy, '/'), (.mdy, '-'), (.dmy, '/'), (.dmy, '-')]

/-- The extra-tolerant fallback pattern list. -/
def fallbackPatterns : List (DOrd × Char) :=
  [(.ymd, '-'), (.dmy, '/'), (.mdy, '/'), (.dmy, '-'), (.mdy, '-'), (.dmy, '.')]

/-- Digit character of `n % 10`-style values (`0 ≤ n ≤ 9`). -/
def dc (n : ℕ) : Char := Char.ofNat (48 + n)

def pad4 (y : ℕ) : List Char :=
  [dc (y / 1000 % 10), dc (y / 100 % 10), dc (y / 10 % 10), dc (y % 10)]

def pad2 (m : ℕ) : List Char := [dc (m / 10 % 10), dc (m % 10)]

/-- The character list of the ISO rendering `YYYY-MM-DD`. -/
def isoL (t : ℕ × ℕ × ℕ) : List Char :=
  pad4 t.1 ++ '-' :: (pad2 t.2.1 ++ '-' :: pad2 t.2.2)

/-- `strftime("%Y-%m-%d")` on a validated date. -/
def strftimeISO (t : ℕ × ℕ × ℕ) : String :=
  String.mk (isoL t)

/-- `_parse_date_localized` from `etl.py`. -/
def parseDateLocalized (date_str : String) (lang : String) : Option String :=
  let raw0 := pyStrip date_str.data
  if raw0 = [] then none
  else
    let raw1 := if raw0.any isArabicIndic then arToAscii raw0 else raw0
    let raw := (raw1.map (fun c => if c = '٫' then '.' else c)).filter (fun c => c ≠ '٬')
    match (patternsFor lang).findSome? (fun p => tryPattern p raw) with
    | some t => some (strftimeISO t)
    | none => ((fallbackPatterns).findSome? (fun p => tryPattern p raw)).map strftimeISO

/-! ### The canonical invoice (`normalize` from `etl.py`) -/

/-- Round half to even at integer precision (Python's `round`), on the exact
rational model of the float values involved. -/
def roundHalfEven (q : ℚ) : ℤ :=
  let f := ⌊q⌋
  let r := q - (f : ℚ)
  if r < 1 / 2 then f
  else if 1 / 2 < r then f + 1
  else if f % 2 = 0 then f else f + 1

/-- Python `round(x, 2)`. -/
def round2 (q : ℚ) : ℚ := (roundHalfEven (100 * q) : ℚ) / 100

/-- A raw line item: a dict whose keys may be absent (`none`) or hold a
loosely-typed value.  The text fields are modelled as optional strings. -/
structure RawItem where
  description : Option String := none
  quantity : Option PyVal := none
  unit_price : Option PyVal := none
  category : Option String := none
deriving DecidableEq

/-- A raw submission payload as consumed by `normalize`. -/
structure RawPayload where
  vendor_name : Option String := none
  invoice_number : Option String := none
  date : Option String := none
  tax_id : Option String := none
  currency : Option String := none
  items : Option (List RawItem) := none
  raw_text : Option String := none
deriving DecidableEq

/-- A canonical line item. -/
structure CanonItem where
  description : String
  quantity : ℤ
  unit_price : ℚ
  category : String
deriving DecidableEq

/-- The canonical invoice produced by `normalize`. -/
structure CanonInvoice where
  vendor_name : String
  invoice_number : String
  date : Option String
  tax_id : String
  items : List CanonItem
  currency : String
  total_amount : Option ℚ
  line_count : ℕ
  full_text : String
deriving DecidableEq

/-- The raw quantity value after the Arabic-digit adjustment step of the
item loop (`it.get("quantity", 1)`, translated when a string and
`lang = "ar"`). -/
def arQty (lang : String) (it : RawItem) : PyVal :=
  match it.quantity.getD (.vint 1) with
  | .vstr s => if lang = "ar" then .vstr (String.mk (arToAscii s.data)) else .vstr s
  | v => v

/-- The per-item body of the `for it in raw_items` loop in `normalize`:
quantity through `int(...)` (Arabic digits pre-translated when `lang = "ar"`)
defaulting to 1, unit price through `_to_float(...) or 0.0`. -/
def canonItem (lang : String) (it : RawItem) : CanonItem :=
  { description := stripS it.description
    quantity := (pyInt (arQty lang it)).getD 1
    unit_price := (toFloat (it.unit_price.getD (.vfloat 0)) lang).getD 0
    category := stripS it.category }

/-- `normalize` from `etl.py`.  The accumulation loop over `raw_items` is
rendered as a map (one canonical item per raw item) plus a sum. -/
def normalize (p : RawPayload) (lang : String) : CanonInvoice :=
  let vendor_name := stripS p.vendor_name
  let invoice_number := stripS p.invoice_number
  let date_iso := parseDateLocalized (stripS p.date) lang
  let tax_id := stripS p.tax_id
  let cur0 := p.currency.getD ""
  let currency := upperS (String.mk (pyStrip (if cur0 = "" then "EUR" else cur0).data))
  let rawItems := p.items.getD []
  let items := rawItems.map (canonItem lang)
  let total := (items.map (fun it => (it.quantity : ℚ) * it.unit_price)).sum
  let line_count := items.length
  let parts0 := [vendor_name, invoice_number, tax_id, currency]
      ++ items.filterMap (fun it => if it.description ≠ "" then some it.description else none)
      ++ [stripS p.raw_text]
  let parts := if lang = "ar" then parts0.map (fun s => String.mk (arToAscii s.data)) else parts0
  { vendor_name := vendor_name
    invoice_number := invoice_number
    date := date_iso
    tax_id := tax_id
    items := items
    currency := currency
    total_amount := if line_count = 0 then none else some (round2 total)
    line_count := line_count
    full_text := String.intercalate " " (parts.filter (fun s => s ≠ "")) }

/-! ### Anomaly scoring (`score_anomaly` from `anomaly.py`)

The IsolationForest loaded from `anomaly_iforest.joblib` is external binary
data, not repository code; its `decision_function` on the two features
`[total_amount, line_count]` is taken as an explicit function parameter. -/

/-- `np.clip`. -/
def clip (x lo hi : ℚ) : ℚ := max lo (min x hi)

/-- `score_anomaly(norm, is_duplicate, missing_count)`, parametrized by the
model's decision function `df` on the two features. -/
def score_anomaly (df : ℚ → ℚ → ℚ) (norm : CanonInvoice) (is_duplicate : Bool)
    (missing_count : ℤ) : ℚ × List String :=
  let amt := norm.total_amount.getD 0
  let lc : ℚ := (norm.line_count : ℚ)
  let raw := df amt lc
  let base_risk := clip (1 / 2 - raw) 0 1
  let risk1 := if is_duplicate then base_risk + 1 / 4 else base_risk
  let reasons1 : List String :=
    if is_duplicate then ["Possible duplicate invoice (same vendor+number)."] else []
  let risk2 := if 0 < missing_count then risk1 + 1 / 10 * ((min missing_count 5 : ℤ) : ℚ)
    else risk1
  let reasons2 := if 0 < missing_count then
      reasons1 ++ [toString missing_count ++ " critical fields missing."]
    else reasons1
  let risk := clip risk2 0 (99 / 100)
  let reasons := if risk < 15 / 100 ∧ reasons2 = [] then
      reasons2 ++ ["Looks consistent with past invoices."]
    else reasons2
  (risk, reasons)

/-! ### Tax classification (`tax.py`)

The textual cues are the compiled case-insensitive regexes of `tax.py`,
embedded as direct searchers.  `\w` (for `\b` word boundaries) is modelled
over ASCII as `[A-Za-z0-9_]`; the cue phrases themselves are ASCII. -/

def isWordChar (c : Char) : Bool := c.isAlphanum || c = '_'

/-- `\b` immediately before a word character: start of text or a non-word
character on the left. -/
def wordBoundary : Option Char → Bool
  | none => true
  | some c => !isWordChar c

/-- `\b` immediately after a word character: end of text or a non-word
character on the right. -/
def boundaryAfter : List Char → Bool
  | [] => true
  | c :: _ => !isWordChar c

/-- Case-insensitive literal match (the literal is given lowercase);
returns the rest of the text. -/
def litCI : List Char → List Char → Option (List Char)
  | [], cs => some cs
  | _ :: _, [] => none
  | l :: ls, c :: cs => if c.toLower = l then litCI ls cs else none

/-- `\s*` (greedy; all following literals start with non-space). -/
def skipWS (cs : List Char) : List Char := cs.dropWhile Char.isWhitespace

/-- `[-\s]*` (greedy). -/
def skipDashWS (cs : List Char) : List Char :=
  cs.dropWhile (fun c => c.isWhitespace || c = '-')

/-- `re.search`: try a position matcher at every offset, tracking the
preceding character for `\b`. -/
def searchFrom (p : Option Char → List Char → Bool) :
    Option Char → List Char → Bool
  | prev, [] => p prev []
  | prev, c :: cs => p prev (c :: cs) || searchFrom p (some c) cs

/-- Like `searchFrom` but stops at a newline (`.` does not cross lines). -/
def searchNoNL (p : Option Char → List Char → Bool) :
    Option Char → List Char → Bool
  | prev, [] => p prev []
  | prev, c :: cs => p prev (c :: cs) || (c ≠ '\n' && searchNoNL p (some c) cs)

/-- `\breverse\s*charge\b` at one position. -/
def matchReverseCharge (prev : Option Char) (cs : List Char) : Bool :=
  wordBoundary prev &&
    (match litCI "reverse".data cs with
     | none => false
     | some r =>
       match litCI "charge".data (skipWS r) with
       | none => false
       | some r2 => boundaryAfter r2)

/-- `\barticle\s*196\b` at one position. -/
def matchArticle196 (prev : Option Char) (cs : List Char) : Bool :=
  wordBoundary prev &&
    (match litCI "article".data cs with
     | none => false
     | some r =>
       match litCI "196".data (skipWS r) with
       | none => false
       | some r2 => boundaryAfter r2)

/-- `\bvat[-\s]*exempt\b` at one position. -/
def matchVatExempt (prev : Option Char) (cs : List Char) : Bool :=
  wordBoundary prev &&
    (match litCI "vat".data cs with
     | none => false
     | some r =>
       match litCI "exempt".data (skipDashWS r) with
     | none => false
     | some r2 => boundaryAfter r2)

/-- `\bzero[-\s]*rated\b` at one position. -/
def matchZeroRated (prev : Option Char) (cs : List Char) : Bool :=
  wordBoundary prev &&
    (match litCI "zero".data cs with
     | none => false
     | some r =>
       match litCI "rated".data (skipDashWS r) with
       | none => false
       | some r2 => boundaryAfter r2)

/-- `\bvat\s*0%|\b0%\s*vat\b` at one position (ordered alternation). -/
def matchVatZeroPercent (prev : Option Char) (cs : List Char) : Bool :=
  (wordBoundary prev &&
    (match litCI "vat".data cs with
     | none => false
     | some r => (litCI "0%".data (skipWS r)).isSome))
  || (wordBoundary prev &&
    (match litCI "0%".data cs with
     | none => false
     | some r =>
       match litCI "vat".data (skipWS r) with
       | none => false
       | some r2 => boundaryAfter r2))

/-- `\b(outside|to)\s*(eu|gcc)\b` at one position. -/
def matchDest (prev : Option Char) (cs : List Char) : Bool :=
  wordBoundary prev && (destFrom (litCI "outside".data cs) || destFrom (litCI "to".data cs))
where
  destFrom : Option (List Char) → Bool
    | none => false
    | some r =>
      let r2 := skipWS r
      (match litCI "eu".data r2 with
       | none => false
       | some r3 => boundaryAfter r3)
      || (match litCI "gcc".data r2 with
          | none => false
          | some r3 => boundaryAfter r3)

/-- `\bexport\b.*\b(outside|to)\s*(eu|gcc)\b` at one position (the `.` of the
gap does not match a newline). -/
def matchExportCue (prev : Option Char) (cs : List Char) : Bool :=
  wordBoundary prev &&
    (match litCI "export".data cs with
     | none => false
     | some r => boundaryAfter r && searchNoNL matchDest (some 't') r)

/-- `\binternational\s*transport(ation)?\b` at one position (greedy optional
group with backtracking). -/
def matchIntlTransport (prev : Option Char) (cs : List Char) : Bool :=
  wordBoundary prev &&
    (match litCI "international".data cs with
     | none => false
     | some r =>
       match litCI "transport".data (skipWS r) with
       | none => false
       | some r3 =>
         (match litCI "ation".data r3 with
          | none => false
          | some r4 => boundaryAfter r4)
         || boundaryAfter r3)

/-- Any of the three `EXEMPT_PATTERNS` matches somewhere in the text. -/
def exemptMatch (cs : List Char) : Bool :=
  searchFrom matchReverseCharge none cs
  || searchFrom matchArticle196 none cs
  || searchFrom matchVatExempt none cs

/-- Any of the four `ZERO_RATED_PATTERNS` matches somewhere in the text. -/
def zeroRatedMatch (cs : List Char) : Bool :=
  searchFrom matchZeroRated none cs
  || searchFrom matchVatZeroPercent none cs
  || searchFrom matchExportCue none cs
  || searchFrom matchIntlTransport none cs

/-- The claim's notion of "contains `reverse charge` (case-insensitive,
flexible spacing)": exactly the first exemption regex. -/
def containsReverseCharge (s : String) : Bool :=
  searchFrom matchReverseCharge none s.data

/-- `EU_STANDARD` table from `tax.py`. -/
def EU_STANDARD : String → Option ℚ
  | "DE" => some (19 / 100)
  | "FR" => some (20 / 100)
  | "IT" => some (22 / 100)
  | "ES" => some (21 / 100)
  | "NL" => some (21 / 100)
  | "BE" => some (21 / 100)
  | "AT" => some (20 / 100)
  | "PT" => some (23 / 100)
  | "SE" => some (25 / 100)
  | "DK" => some (25 / 100)
  | "FI" => some (25 / 100)
  | "IE" => some (23 / 100)
  | _ => none

/-- `GCC_STANDARD` table from `tax.py`. -/
def GCC_STANDARD : String → Option ℚ
  | "AE" => some (5 / 100)
  | "SA" => some (15 / 100)
  | "BH" => some (10 / 100)
  | "OM" => some (5 / 100)
  | _ => none

/-- `CURRENCY_TO_GCC` table from `tax.py`. -/
def CURRENCY_TO_GCC : String → Option String
  | "AED" => some "AE"
  | "SAR" => some "SA"
  | "BHD" => some "BH"
  | "OMR" => some "OM"
  | _ => none

/-- The dict handed to `classify_vat` (`{**norm, "language": lang}` in
`api.py`): only the five keys the function reads are modelled. -/
structure TaxInput where
  tax_id : Option String := none
  currency : Option String := none
  language : Option String := none
  raw_text : Option String := none
  full_text : Option String := none
deriving DecidableEq

/-- `_decide_region_and_rate` from `tax.py`:
returns `(region, rate, country_code_hint)`. -/
def decideRegionAndRate (n : TaxInput) : String × ℚ × String :=
  let tax_id := upperS (n.tax_id.getD "")
  let cur := upperS (n.currency.getD "")
  let language := lowerS (n.language.getD "")
  let cc := String.mk (tax_id.data.take 2)
  match EU_STANDARD cc with
  | some r => ("EU", r, cc)
  | none =>
    match GCC_STANDARD cc with
    | some r => ("GCC", r, cc)
    | none =>
      match CURRENCY_TO_GCC cur with
      | some gcc_cc => ("GCC", (GCC_STANDARD gcc_cc).getD (15 / 100), gcc_cc)
      | none =>
        if language = "ar" then ("GCC", 15 / 100, "GCC")
        else ("Unknown", 15 / 100, "")

/-- `classify_vat`'s result; the human-readable `reason` string is not
modelled. -/
structure TaxResult where
  region : String
  vat : String
  rate : ℚ
deriving DecidableEq

/-- The override-scan text of `classify_vat`:
`f"{raw_text or ''} {full_text or ''}"`. -/
def taxText (n : TaxInput) : List Char :=
  (n.raw_text.getD "").data ++ ' ' :: (n.full_text.getD "").data

/-- `classify_vat` from `tax.py`. -/
def classify_vat (n : TaxInput) : TaxResult :=
  let d := decideRegionAndRate n
  let region := d.1
  let standard_rate := d.2.1
  let cc_hint := d.2.2
  let text := taxText n
  if exemptMatch text then
    { region := region, vat := "exempt", rate := 0 }
  else if zeroRatedMatch text then
    { region := if region ≠ "Unknown" then region else "Unknown",
      vat := "zero-rated", rate := 0 }
  else if region = "EU" ∧ (EU_STANDARD cc_hint).isSome then
    { region := "EU", vat := "standard", rate := (EU_STANDARD cc_hint).getD 0 }
  else if region = "GCC" then
    { region := "GCC", vat := "standard",
      rate := (GCC_STANDARD cc_hint).getD standard_rate }
  else
    { region := "Unknown", vat := "standard", rate := standard_rate }

/-! ### Explanation (`explain.py`)

The TF-IDF vectorizer and classifier are external joblib artifacts; the
per-token raw contributions `tfidf(token) * coef(predicted class, token)`
they produce for the input text are taken as an explicit parameter
(`none` models unavailable artifacts, which makes
`_top_token_contributions` return `[]`). -/

/-- Python `list.sort(key=lambda t: abs(t[1]), reverse=True)`: stable sort
by descending absolute contribution. -/
def sortByAbsDesc (l : List (String × ℚ)) : List (String × ℚ) :=
  l.mergeSort (fun a b => decide (|b.2| ≤ |a.2|))

/-- `max` over the list, with 0 for the empty list (only used nonempty). -/
def maxQ (l : List ℚ) : ℚ := l.foldr (fun a b => max a b) 0

/-- Tail of `_top_token_contributions`: sort by `abs` descending, keep the
top 5, normalize by the largest absolute weight (`or 1.0` when it is 0). -/
def topTokenContributions (contribs : Option (List (String × ℚ))) :
    List (String × ℚ) :=
  match contribs with
  | none => []
  | some cs =>
    let top := (sortByAbsDesc cs).take 5
    if top = [] then []
    else
      let m := maxQ (top.map (fun p => |p.2|))
      let mx := if m = 0 then 1 else m
      top.map (fun p => (p.1, p.2 / mx))

/-- Maximal runs of non-whitespace characters (`acc` holds the current run,
reversed). -/
def splitWSAux : List Char → List Char → List (List Char)
  | [], acc => if acc = [] then [] else [acc.reverse]
  | c :: cs, acc =>
    if c.isWhitespace then
      (if acc = [] then splitWSAux cs [] else acc.reverse :: splitWSAux cs [])
    else splitWSAux cs (c :: acc)

/-- Python `str.split()`: split on whitespace runs, no empty tokens. -/
def splitWS (s : String) : List String :=
  (splitWSAux s.data []).map String.mk

/-- Distinct elements in first-occurrence order (`Counter` key order). -/
def dedupFirst (ts : List String) : List String :=
  ts.foldl (fun acc t => if t ∈ acc then acc else acc ++ [t]) []

def countOcc (t : String) (ts : List String) : ℕ :=
  (ts.filter (fun x => x = t)).length

/-- `Counter(tokens).most_common(n)`: pairs `(token, count)` sorted by count
descending, ties in first-occurrence order (the sort is stable), first `n`. -/
def mostCommon (ts : List String) (n : ℕ) : List (String × ℕ) :=
  (((dedupFirst ts).map (fun t => (t, countOcc t ts))).mergeSort
    (fun a b => decide (b.2 ≤ a.2))).take n

/-- `explain_for_payload`'s result: the method tag and the
`{token, weight}` pairs of `details.top_tokens`. -/
structure ExplainResult where
  method : String
  top_tokens : List (String × ℚ)
deriving DecidableEq

/-- `explain_for_payload` from `explain.py`. -/
def explain_for_payload (contribs : Option (List (String × ℚ)))
    (norm : CanonInvoice) : ExplainResult :=
  let text := lowerS norm.full_text
  let top := topTokenContributions contribs
  if top ≠ [] then
    { method := "linear_contribution", top_tokens := top }
  else
    let tokens := (splitWS text).filter (fun t => 2 < t.length)
    { method := "feature_importances",
      top_tokens := (mostCommon tokens 3).map (fun p => (p.1, (p.2 : ℚ) / 10)) }

/-! ## Theorems for the specification claims -/

/-- A concrete decision function for witnesses: constant zero "normality". -/
def dfZero : ℚ → ℚ → ℚ := fun _ _ => 0

/-- The canonical invoice of the empty payload. -/
def emptyNorm : CanonInvoice := normalize {} "en"

/-- The risk returned by `score_anomaly` is a clamp of something. -/
theorem score_anomaly_fst (df : ℚ → ℚ → ℚ) (norm : CanonInvoice) (dup : Bool)
    (mc : ℤ) : ∃ x, (score_anomaly df norm dup mc).1 = clip x 0 (99 / 100) :=
  ⟨_, rfl⟩

/-- C1: for every canonical invoice, every boolean duplicate flag, and every
missing-field count from 0 to 10 (for any decision function of the loaded
outlier model), the risk score returned by `score_anomaly` lies in
[0, 0.99]. -/
theorem C1_risk_score_bounded (df : ℚ → ℚ → ℚ) (norm : CanonInvoice)
    (is_duplicate : Bool) (missing_count : ℤ)
    (h0 : 0 ≤ missing_count) (h10 : missing_count ≤ 10) :
    0 ≤ (score_anomaly df norm is_duplicate missing_count).1 ∧
      (score_anomaly df norm is_duplicate missing_count).1 ≤ 99 / 100 := by
  obtain ⟨x, hx⟩ := score_anomaly_fst df norm is_duplicate missing_count
  rw [hx]
  unfold clip
  exact ⟨le_max_left 0 _, max_le (by norm_num) (min_le_right _ _)⟩

/-- Witness for C1 at a concrete input. -/
theorem C1_risk_score_bounded_witness :
    (0 : ℤ) ≤ 3 ∧ (3 : ℤ) ≤ 10 ∧
      (0 ≤ (score_anomaly dfZero emptyNorm true 3).1 ∧
        (score_anomaly dfZero emptyNorm true 3).1 ≤ 99 / 100) :=
  ⟨by norm_num, by norm_num,
    C1_risk_score_bounded dfZero emptyNorm true 3 (by norm_num) (by norm_num)⟩

/-- C5 counterexample: with the constant-zero decision function the base risk
is 0.5 ≥ 0.15, so a non-duplicate submission with no missing fields gets an
EMPTY reasons list — the claim "the reasons list is never empty" is false. -/
theorem C5_counterexample :
    (score_anomaly dfZero emptyNorm false 0).2 = [] := by
  norm_num [score_anomaly, clip, dfZero, min_def, max_def]

/-- C5 amended: a duplicate appends the duplicate-warning reason, a positive
missing-field count appends the count reason, and when the final score is
below 0.15 with no rule fired the default "looks consistent" reason is
appended; the reasons list is empty exactly when the final score is at least
0.15 and neither the duplicate flag nor a positive missing-field count
fired. -/
theorem C5_reasons_amended (df : ℚ → ℚ → ℚ) (norm : CanonInvoice) (dup : Bool)
    (mc : ℤ) :
    (dup = true →
      "Possible duplicate invoice (same vendor+number)."
        ∈ (score_anomaly df norm dup mc).2) ∧
    (0 < mc →
      (toString mc ++ " critical fields missing.")
        ∈ (score_anomaly df norm dup mc).2) ∧
    ((score_anomaly df norm dup mc).1 < 15 / 100 ∧ dup = false ∧ mc ≤ 0 →
      (score_anomaly df norm dup mc).2 = ["Looks consistent with past invoices."]) ∧
    ((score_anomaly df norm dup mc).2 = [] ↔
      dup = false ∧ mc ≤ 0 ∧ 15 / 100 ≤ (score_anomaly df norm dup mc).1) := by
  cases dup <;> by_cases hm : 0 < mc <;>
    simp only [score_anomaly, if_true, if_false, hm, Bool.false_eq_true,
      Bool.true_eq_false, ite_true, ite_false, if_neg, not_false_iff] <;>
    split_ifs with h <;>
    simp_all

/-- Witness for C5 amended at a concrete input. -/
theorem C5_reasons_amended_witness :
    "Possible duplicate invoice (same vendor+number)."
        ∈ (score_anomaly dfZero emptyNorm true 1).2 ∧
      (toString (1 : ℤ) ++ " critical fields missing.")
        ∈ (score_anomaly dfZero emptyNorm true 1).2 := by
  have h := C5_reasons_amended dfZero emptyNorm true 1
  exact ⟨h.1 rfl, h.2.1 (by norm_num)⟩

/-- C2: `total_amount` is present iff `line_count > 0`; with zero items it is
`none` (not zero), and when present it is the sum of quantity × unit price
over the canonical items, rounded to 2 decimals. -/
theorem C2_total_amount (p : RawPayload) (lang : String) :
    ((normalize p lang).total_amount.isSome ↔ 0 < (normalize p lang).line_count) ∧
    (normalize p lang).total_amount =
      (if (normalize p lang).line_count = 0 then none
       else some (round2 (((normalize p lang).items.map
         (fun it => (it.quantity : ℚ) * it.unit_price)).sum))) := by
  have hta : (normalize p lang).total_amount =
      (if (normalize p lang).line_count = 0 then none
       else some (round2 (((normalize p lang).items.map
         (fun it => (it.quantity : ℚ) * it.unit_price)).sum))) := rfl
  refine ⟨?_, hta⟩
  rw [hta]
  by_cases h : (normalize p lang).line_count = 0
  · simp [h]
  · simp [h, Nat.pos_of_ne_zero h]

/-- Raw payload whose single item has quantity 0 and unit price "-5". -/
def payC9 : RawPayload :=
  { items := some [{ quantity := some (.vint 0), unit_price := some (.vstr "-5") }] }

unseal Rat.add Rat.sub Rat.mul Rat.inv Rat.ofScientific Nat.gcd in
/-- C9 counterexample: `normalize` does not clamp quantities to ≥ 1 nor unit
prices to ≥ 0 — a raw quantity 0 and unit price "-5" pass through. -/
theorem C9_counterexample :
    ¬ ∀ it ∈ (normalize payC9 "en").items,
        1 ≤ it.quantity ∧ 0 ≤ it.unit_price := by
  intro h
  have hmem : (⟨"", 0, -5, ""⟩ : CanonItem) ∈ (normalize payC9 "en").items := by
    have he : (normalize payC9 "en").items = [⟨"", 0, -5, ""⟩] := by decide
    rw [he]
    exact List.mem_singleton_self _
  have h2 := h _ hmem
  norm_num at h2

/-- C9 amended: every canonical item's quantity is an integer and every unit
price a rational; when every raw quantity that parses at all parses to ≥ 1
and every raw unit price that parses at all parses to ≥ 0 (absent or
unparsable fields default to 1 and 0.0), the canonical values satisfy
quantity ≥ 1 and unit_price ≥ 0. -/
theorem C9_item_bounds_amended (p : RawPayload) (lang : String)
    (hq : ∀ it ∈ p.items.getD [], ∀ z, pyInt (arQty lang it) = some z → 1 ≤ z)
    (hp : ∀ it ∈ p.items.getD [], ∀ q,
      toFloat (it.unit_price.getD (.vfloat 0)) lang = some q → 0 ≤ q) :
    ∀ it ∈ (normalize p lang).items, 1 ≤ it.quantity ∧ 0 ≤ it.unit_price := by
  intro it hit
  have hitems : (normalize p lang).items = (p.items.getD []).map (canonItem lang) := rfl
  rw [hitems] at hit
  obtain ⟨raw, hraw, rfl⟩ := List.mem_map.mp hit
  constructor
  · show 1 ≤ (pyInt (arQty lang raw)).getD 1
    cases hpi : pyInt (arQty lang raw) with
    | none => simp
    | some z => simpa using hq raw hraw z hpi
  · show 0 ≤ (toFloat (raw.unit_price.getD (.vfloat 0)) lang).getD 0
    cases htf : toFloat (raw.unit_price.getD (.vfloat 0)) lang with
    | none => simp
    | some q => simpa using hp raw hraw q htf

/-- A well-formed raw item for witnesses. -/
def itemGood : RawItem :=
  { description := some "Keyboard", quantity := some (.vint 3),
    unit_price := some (.vfloat 35) }

/-- A well-formed raw payload for witnesses. -/
def payGood : RawPayload := { items := some [itemGood] }

/-- Witness for C9 amended at a concrete input. -/
theorem C9_item_bounds_amended_witness :
    1 ≤ (canonItem "en" itemGood).quantity ∧
      0 ≤ (canonItem "en" itemGood).unit_price := by
  have h := C9_item_bounds_amended payGood "en"
    (by
      intro it hit z hz
      have : it = itemGood := by simpa [payGood] using hit
      subst this
      have : z = 3 := by simpa [itemGood, arQty, pyInt] using hz.symm
      omega)
    (by
      intro it hit q hq
      have : it = itemGood := by simpa [payGood] using hit
      subst this
      have : q = 35 := by simpa [itemGood, toFloat] using hq.symm
      subst this
      norm_num)
  exact h (canonItem "en" itemGood)
    (show canonItem "en" itemGood ∈ [canonItem "en" itemGood] from
      List.mem_singleton_self _)

/-- C10: `normalize` produces exactly one canonical item per raw item, in
order (so `line_count` is the raw item count), and a fully malformed raw
item degrades in place to the defaults: quantity 1, unit price 0.0, empty
description and category. -/
theorem C10_one_item_per_raw (p : RawPayload) (lang : String) :
    (normalize p lang).items = (p.items.getD []).map (canonItem lang) ∧
    (normalize p lang).line_count = (p.items.getD []).length ∧
    ∀ lang2, canonItem lang2
        { description := none, quantity := some (.vstr "x"),
          unit_price := some (.vstr "y"), category := none }
      = { description := "", quantity := 1, unit_price := 0, category := "" } := by
  refine ⟨rfl, ?_, ?_⟩
  · show ((p.items.getD []).map (canonItem lang)).length = _
    simp
  · intro lang2
    by_cases hA : lang2 = "ar"
    · subst hA; decide
    · by_cases hD : lang2 = "de"
      · subst hD; decide
      · simp only [canonItem, arQty, toFloat, normalizeNumberStr, hA, hD,
          if_false, ite_false]
        decide

unseal Rat.add Rat.sub Rat.mul Rat.inv Rat.ofScientific Nat.gcd in
/-- C7: locale-aware numeric parsing: German `"1.234,56"` → 1234.56, English
`"1,234.56"` → 1234.56, Arabic-Indic `"١٬٢٣٤٫٥٦"` → 1234.56; an already
numeric value bypasses string parsing; a string that still fails to parse
yields `none`. -/
theorem C7_number_parsing :
    toFloat (.vstr "1.234,56") "de" = some (123456 / 100) ∧
    toFloat (.vstr "1,234.56") "en" = some (123456 / 100) ∧
    toFloat (.vstr "١٬٢٣٤٫٥٦") "ar" = some (123456 / 100) ∧
    (∀ q lang, toFloat (.vfloat q) lang = some q) ∧
    (∀ s lang, parsePyFloat (normalizeNumberStr s.data lang) = none →
      toFloat (.vstr s) lang = none) := by
  refine ⟨?_, ?_, ?_, fun q lang => rfl, fun s lang h => h⟩ <;> decide

/-- Witness for C7's failure clause at a concrete input. -/
theorem C7_number_parsing_witness :
    parsePyFloat (normalizeNumberStr "abc".data "en") = none ∧
      toFloat (.vstr "abc") "en" = none := by
  have hp : parsePyFloat (normalizeNumberStr "abc".data "en") = none := by decide
  exact ⟨hp, C7_number_parsing.2.2.2.2 "abc" "en" hp⟩

/-- C3: any text containing "reverse charge" (case-insensitive, flexible
spacing) forces classification `exempt` at rate 0.0, whatever the tax id,
currency or resolved region, and before any zero-rating scan. -/
theorem C3_reverse_charge_forces_exempt (n : TaxInput)
    (h : containsReverseCharge
      ((n.raw_text.getD "") ++ " " ++ (n.full_text.getD "")) = true) :
    (classify_vat n).vat = "exempt" ∧ (classify_vat n).rate = 0 := by
  have hdata : ((n.raw_text.getD "") ++ " " ++ (n.full_text.getD "")).data
      = taxText n := by
    have hsp : (" " : String).data = [' '] := rfl
    simp [taxText, String.data_append, hsp]
  have hm : exemptMatch (taxText n) = true := by
    unfold containsReverseCharge at h
    rw [hdata] at h
    unfold exemptMatch
    rw [h]
    simp
  refine ⟨?_, ?_⟩ <;> simp [classify_vat, hm]

/-- A concrete `classify_vat` input with a "reverse charge" cue. -/
def rcInput : TaxInput :=
  { tax_id := some "DE123456789", raw_text := some "please apply Reverse  Charge" }

unseal Rat.add Rat.sub Rat.mul Rat.inv Rat.ofScientific Nat.gcd in
/-- Witness for C3 at a concrete input. -/
theorem C3_reverse_charge_forces_exempt_witness :
    containsReverseCharge
        ((rcInput.raw_text.getD "") ++ " " ++ (rcInput.full_text.getD "")) = true ∧
      (classify_vat rcInput).vat = "exempt" ∧
      (classify_vat rcInput).rate = 0 :=
  ⟨by decide, C3_reverse_charge_forces_exempt rcInput (by decide)⟩

/-- Modelled on the specification claim's words (refinement target for C4):
the region/rate resolution ladder — EU table on the uppercased two-character
tax-id head, else GCC table, else the currency→GCC hint at that country's
rate, else GCC at 15% for language `ar`, else Unknown at 15%. -/
def specRegionRate (n : TaxInput) : String × ℚ :=
  let cc := String.mk ((upperS (n.tax_id.getD "")).data.take 2)
  match EU_STANDARD cc with
  | some r => ("EU", r)
  | none =>
    match GCC_STANDARD cc with
    | some r => ("GCC", r)
    | none =>
      match CURRENCY_TO_GCC (upperS (n.currency.getD "")) with
      | some g => ("GCC", (GCC_STANDARD g).getD (15 / 100))
      | none =>
        if lowerS (n.language.getD "") = "ar" then ("GCC", 15 / 100)
        else ("Unknown", 15 / 100)

unseal Rat.add Rat.sub Rat.mul Rat.inv Rat.ofScientific Nat.gcd in
/-- C4: with no exemption or zero-rating cue in the text, `classify_vat`
resolves region and rate exactly by the claim's ladder, with classification
`standard`; in particular a `DE` tax-id prefix yields EU at 0.19 and
currency `AED` with no recognized prefix yields GCC at 0.05. -/
theorem C4_resolution_order (n : TaxInput)
    (hx : exemptMatch (taxText n) = false)
    (hz : zeroRatedMatch (taxText n) = false) :
    ((classify_vat n).region = (specRegionRate n).1 ∧
      (classify_vat n).rate = (specRegionRate n).2 ∧
      (classify_vat n).vat = "standard") ∧
    classify_vat { tax_id := some "DE123456789" }
      = { region := "EU", vat := "standard", rate := 19 / 100 } ∧
    classify_vat { currency := some "AED" }
      = { region := "GCC", vat := "standard", rate := 5 / 100 } := by
  refine ⟨?_, by decide, by decide⟩
  unfold classify_vat decideRegionAndRate specRegionRate
  simp only [hx, hz, Bool.false_eq_true, if_false, ite_false]
  cases hEU : EU_STANDARD (String.mk ((upperS (n.tax_id.getD "")).data.take 2)) with
  | some r => simp [hEU]
  | none =>
    cases hGCC : GCC_STANDARD (String.mk ((upperS (n.tax_id.getD "")).data.take 2)) with
    | some r => simp [hEU, hGCC]
    | none =>
      cases hCur : CURRENCY_TO_GCC (upperS (n.currency.getD "")) with
      | some g =>
        cases hg : GCC_STANDARD g with
        | some r => simp [hEU, hGCC, hCur, hg]
        | none => simp [hEU, hGCC, hCur, hg]
      | none =>
        by_cases hAr : lowerS (n.language.getD "") = "ar"
        · have hGCCd : GCC_STANDARD "GCC" = none := rfl
          simp [hEU, hGCC, hCur, hAr, hGCCd]
        · simp [hEU, hGCC, hCur, hAr]

unseal Rat.add Rat.sub Rat.mul Rat.inv Rat.ofScientific Nat.gcd in
/-- Witness for C4 at a concrete input. -/
theorem C4_resolution_order_witness :
    (classify_vat { tax_id := some "FR7689" }).region
        = (specRegionRate { tax_id := some "FR7689" }).1 ∧
      (classify_vat { tax_id := some "FR7689" }).rate
        = (specRegionRate { tax_id := some "FR7689" }).2 :=
  ⟨((C4_resolution_order { tax_id := some "FR7689" } (by decide) (by decide)).1).1,
    ((C4_resolution_order { tax_id := some "FR7689" } (by decide) (by decide)).1).2.1⟩

/-! ### Helper lemmas for the explanation claims -/

theorem maxQ_nonneg (l : List ℚ) : 0 ≤ maxQ l := by
  induction l with
  | nil => exact le_refl 0
  | cons a t ih => exact le_trans ih (le_max_right a (maxQ t))

theorem le_maxQ {x : ℚ} {l : List ℚ} (hx : x ∈ l) : x ≤ maxQ l := by
  induction l with
  | nil => cases hx
  | cons a t ih =>
    rcases List.mem_cons.mp hx with h | h
    · subst h; exact le_max_left _ _
    · exact le_trans (ih h) (le_max_right _ _)

theorem maxQ_mem {l : List ℚ} (h : maxQ l ≠ 0) : maxQ l ∈ l := by
  induction l with
  | nil => exact absurd rfl h
  | cons a t ih =>
    have hm : maxQ (a :: t) = max a (maxQ t) := rfl
    rcases max_choice a (maxQ t) with hc | hc
    · rw [hm, hc]
      exact List.mem_cons_self a t
    · rw [hm, hc] at h ⊢
      exact List.mem_cons_of_mem a (ih h)

theorem dedup_foldl_ext (ts : List String) : ∀ acc, ∃ ext,
    ts.foldl (fun acc t => if t ∈ acc then acc else acc ++ [t]) acc = acc ++ ext := by
  induction ts with
  | nil => exact fun acc => ⟨[], by simp⟩
  | cons t ts ih =>
    intro acc
    simp only [List.foldl_cons]
    by_cases h : t ∈ acc
    · simpa [h] using ih acc
    · obtain ⟨ext, he⟩ := ih (acc ++ [t])
      refine ⟨t :: ext, ?_⟩
      simp only [h, if_false, ite_false] at he ⊢
      rw [he, List.append_assoc]
      rfl

theorem dedupFirst_ne_nil {ts : List String} (h : ts ≠ []) : dedupFirst ts ≠ [] := by
  cases ts with
  | nil => exact absurd rfl h
  | cons t ts =>
    unfold dedupFirst
    simp only [List.foldl_cons, List.not_mem_nil, if_false, ite_false, List.nil_append]
    obtain ⟨ext, he⟩ := dedup_foldl_ext ts [t]
    rw [he]
    simp

theorem mergeSort_eq_nil_iff {α : Type} {l : List α} {le : α → α → Bool} :
    l.mergeSort le = [] ↔ l = [] := by
  constructor
  · intro h
    have hp := List.mergeSort_perm l le
    rw [h] at hp
    exact (List.Perm.nil_eq hp).symm
  · intro h
    subst h
    simp

/-- A canonical invoice whose text produces a fallback explanation with a
repeated token. -/
def normC6 : CanonInvoice :=
  { vendor_name := "", invoice_number := "", date := none, tax_id := "",
    items := [], currency := "EUR", total_amount := none, line_count := 0,
    full_text := "aaa aaa" }

unseal List.merge List.mergeSort Rat.add Rat.sub Rat.mul Rat.inv Rat.ofScientific Nat.gcd in
/-- C6 counterexample: on the fallback path the synthetic weight is the
token's COUNT divided by 10 (here "aaa" twice → weight 0.2, "eur" once →
0.1), so the returned list is non-empty while no weight — hence not the
maximum absolute weight — equals 1.0. -/
theorem C6_counterexample :
    (explain_for_payload none normC6).top_tokens ≠ [] ∧
      ∀ p ∈ (explain_for_payload none normC6).top_tokens, |p.2| ≠ 1 := by decide

/-- C6 amended: at most 5 pairs are returned; on the model path the list is
non-empty, every weight is at most 1 in absolute value, and either all
weights are zero (zero raw contributions) or some weight attains absolute
value exactly 1; on the fallback path the pairs are the 3 most frequent
tokens of length > 2 with synthetic weights count/10.0 (the token's
frequency, not its rank index) in descending-frequency order, the list being
empty exactly when there is no token of length > 2. -/
theorem C6_explanation_amended (contribs : Option (List (String × ℚ)))
    (norm : CanonInvoice) :
    (explain_for_payload contribs norm).top_tokens.length ≤ 5 ∧
    ((explain_for_payload contribs norm).method = "linear_contribution" →
      (explain_for_payload contribs norm).top_tokens ≠ [] ∧
      (∀ p ∈ (explain_for_payload contribs norm).top_tokens, |p.2| ≤ 1) ∧
      ((∀ p ∈ (explain_for_payload contribs norm).top_tokens, p.2 = 0) ∨
        (∃ p ∈ (explain_for_payload contribs norm).top_tokens, |p.2| = 1))) ∧
    ((explain_for_payload contribs norm).method = "feature_importances" →
      (explain_for_payload contribs norm).top_tokens
          = (mostCommon ((splitWS (lowerS norm.full_text)).filter
              (fun t => 2 < t.length)) 3).map (fun p => (p.1, (p.2 : ℚ) / 10)) ∧
      List.Pairwise (fun a b => b.2 ≤ a.2)
        (explain_for_payload contribs norm).top_tokens ∧
      ((explain_for_payload contribs norm).top_tokens = [] ↔
        (splitWS (lowerS norm.full_text)).filter (fun t => 2 < t.length) = [])) := by
  by_cases h : topTokenContributions contribs = []
  · -- fallback path
    have hr : explain_for_payload contribs norm =
        { method := "feature_importances",
          top_tokens := (mostCommon ((splitWS (lowerS norm.full_text)).filter
            (fun t => 2 < t.length)) 3).map (fun p => (p.1, (p.2 : ℚ) / 10)) } := by
      simp [explain_for_payload, h]
    rw [hr]
    refine ⟨?_, ?_, ?_⟩
    · simp only [mostCommon, List.length_map, List.length_take]
      omega
    · intro hmethod
      exact absurd hmethod (by simp)
    · intro _
      refine ⟨rfl, ?_, ?_⟩
      · -- descending counts
        have hs := @List.sorted_mergeSort (String × ℕ)
          (fun a b => decide (b.2 ≤ a.2))
          (fun a b c hab hbc => by
            simp only [decide_eq_true_iff] at hab hbc ⊢
            omega)
          (fun a b => by
            simp only [Bool.or_eq_true, decide_eq_true_iff]
            omega)
          ((dedupFirst ((splitWS (lowerS norm.full_text)).filter
            (fun t => 2 < t.length))).map
            (fun t => (t, countOcc t ((splitWS (lowerS norm.full_text)).filter
              (fun t => 2 < t.length)))))
        have hs2 : List.Pairwise (fun (a b : String × ℕ) => b.2 ≤ a.2)
            (mostCommon ((splitWS (lowerS norm.full_text)).filter
              (fun t => 2 < t.length)) 3) := by
          refine List.Pairwise.sublist (List.take_sublist _ _) ?_
          exact hs.imp (fun hab => by simpa using hab)
        rw [List.pairwise_map]
        exact hs2.imp (fun hab => by
          have h10 : (0 : ℚ) < 10 := by norm_num
          exact (div_le_div_iff_of_pos_right h10).mpr (by exact_mod_cast hab))
      · -- empty iff no token of length > 2
        constructor
        · intro he
          by_contra hne
          have h1 : dedupFirst ((splitWS (lowerS norm.full_text)).filter
              (fun t => 2 < t.length)) ≠ [] := dedupFirst_ne_nil hne
          have h2 := List.map_eq_nil_iff.mp he
          rw [mostCommon] at h2
          rcases List.take_eq_nil_iff.mp h2 with h3 | h3
          · omega
          · exact h1 (List.map_eq_nil_iff.mp (mergeSort_eq_nil_iff.mp h3))
        · intro he
          simp [mostCommon, he, dedupFirst]
  · -- model path
    have hsome : ∃ cs, contribs = some cs := by
      cases contribs with
      | none => exact absurd rfl h
      | some cs => exact ⟨cs, rfl⟩
    obtain ⟨cs, rfl⟩ := hsome
    have h0 : (sortByAbsDesc cs).take 5 ≠ [] := by
      intro hnil
      exact h (by simp [topTokenContributions, hnil])
    have htt : topTokenContributions (some cs) =
        ((sortByAbsDesc cs).take 5).map (fun p => (p.1, p.2 /
          (if maxQ (((sortByAbsDesc cs).take 5).map (fun p => |p.2|)) = 0 then 1
           else maxQ (((sortByAbsDesc cs).take 5).map (fun p => |p.2|))))) := by
      simp only [topTokenContributions]
      rw [if_neg h0]
    have hr : explain_for_payload (some cs) norm =
        { method := "linear_contribution",
          top_tokens := topTokenContributions (some cs) } := by
      simp [explain_for_payload, h]
    rw [hr]
    refine ⟨?_, ?_, ?_⟩
    · rw [htt]
      simp only [List.length_map, List.length_take]
      omega
    · intro _
      refine ⟨by rw [htt]; simpa using h0, ?_, ?_⟩
      · -- every |weight| ≤ 1
        intro p hp
        rw [htt] at hp
        obtain ⟨q, hq, rfl⟩ := List.mem_map.mp hp
        have habs : |q.2| ≤ maxQ (((sortByAbsDesc cs).take 5).map (fun p => |p.2|)) :=
          le_maxQ (List.mem_map.mpr ⟨q, hq, rfl⟩)
        by_cases hm : maxQ (((sortByAbsDesc cs).take 5).map (fun p => |p.2|)) = 0
        · have hq0 : q.2 = 0 := by
            have : |q.2| ≤ 0 := by rw [hm] at habs; exact habs
            simpa using abs_nonpos_iff.mp this
          simp [hm, hq0]
        · have hpos : 0 < maxQ (((sortByAbsDesc cs).take 5).map (fun p => |p.2|)) :=
            lt_of_le_of_ne (maxQ_nonneg _) (Ne.symm hm)
          rw [if_neg hm]
          show |q.2 / _| ≤ 1
          rw [abs_div, abs_of_pos hpos]
          exact (div_le_one hpos).mpr habs
      · -- all zero, or some |weight| = 1
        by_cases hm : maxQ (((sortByAbsDesc cs).take 5).map (fun p => |p.2|)) = 0
        · left
          intro p hp
          rw [htt] at hp
          obtain ⟨q, hq, rfl⟩ := List.mem_map.mp hp
          have habs : |q.2| ≤ (0 : ℚ) := by
            have := @le_maxQ (|q.2|) (((sortByAbsDesc cs).take 5).map (fun p => |p.2|))
              (List.mem_map.mpr ⟨q, hq, rfl⟩)
            rw [hm] at this
            exact this
          have hq0 : q.2 = 0 := by simpa using abs_nonpos_iff.mp habs
          simp [hq0]
        · right
          have hpos : 0 < maxQ (((sortByAbsDesc cs).take 5).map (fun p => |p.2|)) :=
            lt_of_le_of_ne (maxQ_nonneg _) (Ne.symm hm)
          obtain ⟨q, hq, hqm⟩ := List.mem_map.mp (maxQ_mem hm)
          refine ⟨(q.1, q.2 /
            (if maxQ (((sortByAbsDesc cs).take 5).map (fun p => |p.2|)) = 0 then 1
             else maxQ (((sortByAbsDesc cs).take 5).map (fun p => |p.2|)))), ?_, ?_⟩
          · rw [htt]
            exact List.mem_map.mpr ⟨q, hq, rfl⟩
          · rw [if_neg hm]
            show |q.2 / _| = 1
            rw [abs_div, abs_of_pos hpos, hqm]
            exact div_self (ne_of_gt hpos)
    · intro hmethod
      exact absurd hmethod (by simp)

unseal List.merge List.mergeSort Rat.add Rat.sub Rat.mul Rat.inv Rat.ofScientific Nat.gcd in
/-- Witness for C6 amended at a concrete input (model path, one raw
contribution of 2, normalized to weight 1). -/
theorem C6_explanation_amended_witness :
    (explain_for_payload (some [("tok", 2)]) normC6).top_tokens.length ≤ 5 ∧
      ((∀ p ∈ (explain_for_payload (some [("tok", 2)]) normC6).top_tokens,
          p.2 = 0) ∨
        (∃ p ∈ (explain_for_payload (some [("tok", 2)]) normC6).top_tokens,
          |p.2| = 1)) := by
  have h := C6_explanation_amended (some [("tok", 2)]) normC6
  exact ⟨h.1, (h.2.1 (by decide)).2.2⟩

/-! ### Helper lemmas for the date round-trip claim -/

theorem dc_isDigit (k : ℕ) (h : k < 10) : (dc k).isDigit = true := by
  interval_cases k <;> rfl

theorem dc_not_ws (k : ℕ) (h : k < 10) : (dc k).isWhitespace = false := by
  interval_cases k <;> rfl

theorem dc_not_ar (k : ℕ) (h : k < 10) : isArabicIndic (dc k) = false := by
  interval_cases k <;> rfl

theorem dc_ne_arDec (k : ℕ) (h : k < 10) : dc k ≠ '٫' := by
  interval_cases k <;> decide

theorem dc_ne_arThou (k : ℕ) (h : k < 10) : dc k ≠ '٬' := by
  interval_cases k <;> decide

theorem dc_toNat (k : ℕ) (h : k < 10) : (dc k).toNat = 48 + k := by
  interval_cases k <;> rfl

theorem dc_ne_sep (k : ℕ) (h : k < 10) :
    dc k ≠ '.' ∧ dc k ≠ '/' ∧ dc k ≠ '-' := by
  interval_cases k <;> decide

theorem pyStrip_eq_self {l : List Char} (h : ∀ ch ∈ l, ch.isWhitespace = false) :
    pyStrip l = l := by
  unfold pyStrip
  have h1 : l.dropWhile Char.isWhitespace = l := by
    cases l with
    | nil => rfl
    | cons a t =>
      rw [List.dropWhile_cons, h a (List.mem_cons_self a t)]
      simp
  rw [h1]
  have h2 : l.reverse.dropWhile Char.isWhitespace = l.reverse := by
    cases hr : l.reverse with
    | nil => rfl
    | cons a t =>
      have ha : a ∈ l := by
        rw [← List.mem_reverse, hr]
        exact List.mem_cons_self a t
      rw [List.dropWhile_cons, h a ha]
      simp
  rw [h2, List.reverse_reverse]

theorem map_if_eq_self {l : List Char} (h : ∀ ch ∈ l, ch ≠ '٫') :
    l.map (fun ch => if ch = '٫' then '.' else ch) = l := by
  induction l with
  | nil => rfl
  | cons a t ih =>
    have ha := h a (List.mem_cons_self a t)
    simp only [List.map_cons, if_neg ha]
    rw [ih (fun ch hch => h ch (List.mem_cons_of_mem a hch))]

theorem digitsToNat_pad4 (y : ℕ) (hy : y ≤ 9999) :
    digitsToNat [dc (y / 1000 % 10), dc (y / 100 % 10), dc (y / 10 % 10),
      dc (y % 10)] = y := by
  have e1 := dc_toNat (y / 1000 % 10) (Nat.mod_lt _ (by norm_num))
  have e2 := dc_toNat (y / 100 % 10) (Nat.mod_lt _ (by norm_num))
  have e3 := dc_toNat (y / 10 % 10) (Nat.mod_lt _ (by norm_num))
  have e4 := dc_toNat (y % 10) (Nat.mod_lt _ (by norm_num))
  simp only [digitsToNat, List.foldl_cons, List.foldl_nil, e1, e2, e3, e4]
  omega

theorem monthCands_padded (m : ℕ) (h1 : 1 ≤ m) (h2 : m ≤ 12) (rest : List Char) :
    monthCands (dc (m / 10 % 10) :: dc (m % 10) :: rest)
      = (m, rest) :: (if 10 ≤ m then [(1, dc (m % 10) :: rest)] else []) := by
  interval_cases m <;> rfl

theorem dayCands_padded (d : ℕ) (h1 : 1 ≤ d) (h2 : d ≤ 31) (rest : List Char) :
    dayCands (dc (d / 10 % 10) :: dc (d % 10) :: rest)
      = (d, rest) :: (if 10 ≤ d then [(d / 10, dc (d % 10) :: rest)] else []) := by
  interval_cases d <;> rfl

theorem dayCands_rest {cs : List Char} {p : ℕ × List Char} (hp : p ∈ dayCands cs) :
    p.2 = cs.drop 1 ∨ p.2 = cs.drop 2 := by
  match cs with
  | [] => simp [dayCands] at hp
  | [a] =>
    simp only [dayCands] at hp
    split at hp <;> simp_all
  | a :: b :: rest =>
    simp only [dayCands, List.mem_append] at hp
    rcases hp with ((h | h) | h) | h <;> split at h <;> simp_all

theorem dmy_regex_fails {sep x1 x2 x3 : Char} {rest : List Char}
    (hsep2 : x2 ≠ sep) (hsep3 : x3 ≠ sep) :
    regexDate .dmy sep (x1 :: x2 :: x3 :: rest) = none := by
  unfold regexDate
  refine List.findSome?_eq_none_iff.mpr ?_
  intro p hp
  rcases dayCands_rest hp with h | h <;> rw [h] <;>
    simp [expectChar, hsep2, hsep3, List.drop]

theorem daysInMonth_le31 (y m : ℕ) : daysInMonth y m ≤ 31 := by
  unfold daysInMonth
  split_ifs <;> norm_num

theorem mkDate_valid {y m d : ℕ} (hy1 : 1 ≤ y) (hy2 : y ≤ 9999) (hm1 : 1 ≤ m)
    (hm2 : m ≤ 12) (hd1 : 1 ≤ d) (hd2 : d ≤ daysInMonth y m) :
    mkDate (y, m, d) = some (y, m, d) := by
  unfold mkDate
  rw [if_pos]
  exact ⟨hy1, hy2, hm1, hm2, hd1, hd2⟩

theorem regex_ymd_iso (y m d : ℕ) (hy : y ≤ 9999) (hm1 : 1 ≤ m) (hm2 : m ≤ 12)
    (hd1 : 1 ≤ d) (hd2 : d ≤ 31) :
    regexDate .ymd '-' (isoL (y, m, d)) = some (y, m, d) := by
  have e1 := dc_isDigit (y / 1000 % 10) (Nat.mod_lt _ (by norm_num))
  have e2 := dc_isDigit (y / 100 % 10) (Nat.mod_lt _ (by norm_num))
  have e3 := dc_isDigit (y / 10 % 10) (Nat.mod_lt _ (by norm_num))
  have e4 := dc_isDigit (y % 10) (Nat.mod_lt _ (by norm_num))
  show regexDate .ymd '-'
      (dc (y / 1000 % 10) :: dc (y / 100 % 10) :: dc (y / 10 % 10) :: dc (y % 10) ::
        '-' :: dc (m / 10 % 10) :: dc (m % 10) :: '-' ::
        dc (d / 10 % 10) :: dc (d % 10) :: []) = some (y, m, d)
  unfold regexDate
  simp [parseY4, e1, e2, e3, e4, expectChar, monthCands_padded m hm1 hm2,
    dayCands_padded d hd1 hd2, List.findSome?_cons, digitsToNat_pad4 y hy]

/-- C8: for every supported language and every valid date, the zero-padded
ISO 8601 string `YYYY-MM-DD` round-trips through `_parse_date_localized`
unchanged. -/
theorem C8_iso_date_roundtrip (lang : String) (y m d : ℕ)
    (hlang : lang = "en" ∨ lang = "de" ∨ lang = "ar")
    (hy1 : 1 ≤ y) (hy2 : y ≤ 9999) (hm1 : 1 ≤ m) (hm2 : m ≤ 12)
    (hd1 : 1 ≤ d) (hd2 : d ≤ daysInMonth y m) :
    parseDateLocalized (strftimeISO (y, m, d)) lang
      = some (strftimeISO (y, m, d)) := by
  have ka : y / 1000 % 10 < 10 := Nat.mod_lt _ (by norm_num)
  have kb : y / 100 % 10 < 10 := Nat.mod_lt _ (by norm_num)
  have kc : y / 10 % 10 < 10 := Nat.mod_lt _ (by norm_num)
  have ke : y % 10 < 10 := Nat.mod_lt _ (by norm_num)
  have km1 : m / 10 % 10 < 10 := Nat.mod_lt _ (by norm_num)
  have km2 : m % 10 < 10 := Nat.mod_lt _ (by norm_num)
  have kd1 : d / 10 % 10 < 10 := Nat.mod_lt _ (by norm_num)
  have kd2 : d % 10 < 10 := Nat.mod_lt _ (by norm_num)
  have hd31 : d ≤ 31 := le_trans hd2 (daysInMonth_le31 y m)
  have hall : ∀ ch ∈ isoL (y, m, d),
      ch.isWhitespace = false ∧ isArabicIndic ch = false ∧
        ch ≠ '٫' ∧ ch ≠ '٬' := by
    intro ch hch
    simp only [isoL, pad4, pad2, List.mem_append, List.mem_cons,
      List.not_mem_nil, or_false] at hch
    rcases hch with (rfl | rfl | rfl | rfl) | rfl | (rfl | rfl) | rfl | rfl | rfl
    · exact ⟨dc_not_ws _ ka, dc_not_ar _ ka, dc_ne_arDec _ ka, dc_ne_arThou _ ka⟩
    · exact ⟨dc_not_ws _ kb, dc_not_ar _ kb, dc_ne_arDec _ kb, dc_ne_arThou _ kb⟩
    · exact ⟨dc_not_ws _ kc, dc_not_ar _ kc, dc_ne_arDec _ kc, dc_ne_arThou _ kc⟩
    · exact ⟨dc_not_ws _ ke, dc_not_ar _ ke, dc_ne_arDec _ ke, dc_ne_arThou _ ke⟩
    · exact ⟨rfl, rfl, by decide, by decide⟩
    · exact ⟨dc_not_ws _ km1, dc_not_ar _ km1, dc_ne_arDec _ km1, dc_ne_arThou _ km1⟩
    · exact ⟨dc_not_ws _ km2, dc_not_ar _ km2, dc_ne_arDec _ km2, dc_ne_arThou _ km2⟩
    · exact ⟨rfl, rfl, by decide, by decide⟩
    · exact ⟨dc_not_ws _ kd1, dc_not_ar _ kd1, dc_ne_arDec _ kd1, dc_ne_arThou _ kd1⟩
    · exact ⟨dc_not_ws _ kd2, dc_not_ar _ kd2, dc_ne_arDec _ kd2, dc_ne_arThou _ kd2⟩
  have hstrip : pyStrip (strftimeISO (y, m, d)).data = isoL (y, m, d) :=
    pyStrip_eq_self (fun ch hch => (hall ch hch).1)
  have hnil : ¬ (isoL (y, m, d) = []) := by simp [isoL, pad4]
  have har : (isoL (y, m, d)).any isArabicIndic = false :=
    List.any_eq_false.mpr (fun ch hch => by simp [(hall ch hch).2.1])
  have hmap : (isoL (y, m, d)).map (fun ch => if ch = '٫' then '.' else ch)
      = isoL (y, m, d) := map_if_eq_self (fun ch hch => (hall ch hch).2.2.1)
  have hfil : (isoL (y, m, d)).filter (fun ch => ch ≠ '٬') = isoL (y, m, d) := by
    refine List.filter_eq_self.mpr (fun ch hch => ?_)
    simp [(hall ch hch).2.2.2]
  have hmk := mkDate_valid hy1 hy2 hm1 hm2 hd1 hd2
  have hymd : tryPattern (.ymd, '-') (isoL (y, m, d)) = some (y, m, d) := by
    unfold tryPattern
    rw [regex_ymd_iso y m d hy2 hm1 hm2 hd1 hd31]
    simpa using hmk
  have hb2 := dc_ne_sep _ kb
  have hc2 := dc_ne_sep _ kc
  have hfails : ∀ sep : Char, dc (y / 100 % 10) ≠ sep → dc (y / 10 % 10) ≠ sep →
      tryPattern (.dmy, sep) (isoL (y, m, d)) = none := by
    intro sep h2 h3
    have hre : regexDate .dmy sep (isoL (y, m, d)) = none := by
      show regexDate .dmy sep
          (dc (y / 1000 % 10) :: dc (y / 100 % 10) :: dc (y / 10 % 10) ::
            (dc (y % 10) :: '-' :: dc (m / 10 % 10) :: dc (m % 10) :: '-' ::
              dc (d / 10 % 10) :: dc (d % 10) :: [])) = none
      exact dmy_regex_fails h2 h3
    unfold tryPattern
    rw [hre]
    rfl
  unfold parseDateLocalized
  simp only [hstrip, hnil, har, hmap, hfil, if_false, ite_false,
    Bool.false_eq_true]
  rcases hlang with rfl | rfl | rfl
  · have hpat : patternsFor "en"
        = [(.ymd, '-'), (.mdy, '/'), (.mdy, '-'), (.dmy, '/'), (.dmy, '-')] := rfl
    simp [hpat, List.findSome?_cons, hymd]
  · have hpat : patternsFor "de"
        = [(.dmy, '.'), (.dmy, '/'), (.dmy, '-'), (.ymd, '-')] := rfl
    simp [hpat, List.findSome?_cons, hymd, hfails '.' hb2.1 hc2.1,
      hfails '/' hb2.2.1 hc2.2.1, hfails '-' hb2.2.2 hc2.2.2]
  · have hpat : patternsFor "ar" = [(.dmy, '/'), (.ymd, '-'), (.dmy, '-')] := rfl
    simp [hpat, List.findSome?_cons, hymd, hfails '/' hb2.2.1 hc2.2.1]

/-- Witness for C8 at a concrete input. -/
theorem C8_iso_date_roundtrip_witness :
    strftimeISO (2025, 7, 10) = "2025-07-10" ∧
      parseDateLocalized (strftimeISO (2025, 7, 10)) "de"
        = some (strftimeISO (2025, 7, 10)) :=
  ⟨by decide,
    C8_iso_date_roundtrip "de" 2025 7 10 (Or.inr (Or.inl rfl)) (by norm_num)
      (by norm_num) (by norm_num) (by norm_num) (by norm_num) (by decide)⟩

end InvoiceX
